import Mathlib

/-!
Verification of the TOON codec in `scripts/droid_toon_integration.py`.

The development shallowly embeds the Python module: the JSON-like data
model (`Value`), the `TOONEncoder` methods, the `TOONDecoder` methods and
the `DroidTOONIntegration` dispatch layer.  Python strings are modelled as
`List Char` internally (converted to `String` at the boundaries), Python
`dict` as an association list with insertion-order update semantics, and
Python exceptions (`ValueError` raised by `float(...)`) as `Except`.
All definitions are written by direct transcription of the source; each
carries a comment pointing at the Python lines it embeds.
-/

/-- JSON-like value tree handled by the codec (Python `None`/`bool`/`int`/
`float`/`str`/`dict`/`list`).  A Python `float` is modelled as an exact
decimal `m / 10 ^ e` with the fraction part normalised (no trailing zero
digits), which matches Python semantics on the plain decimal literals the
codec produces and consumes. -/
inductive Value where
  | null : Value
  | bool (b : Bool) : Value
  | int (n : Int) : Value
  | float (m : Int) (e : Nat) : Value
  | str (s : String) : Value
  | obj (fields : List (String × Value)) : Value
  | arr (elems : List Value) : Value

/-- Python whitespace characters, the set stripped by `str.strip()`. -/
def pySpace (c : Char) : Bool :=
  c = ' ' || c = '\t' || c = '\n' || c = '\r' || c = '\x0b' || c = '\x0c'

/-- Python `str.lstrip()` on a character list. -/
def pyLstrip (l : List Char) : List Char := l.dropWhile pySpace

/-- Python `str.rstrip()` on a character list. -/
def pyRstrip (l : List Char) : List Char := (l.reverse.dropWhile pySpace).reverse

/-- Python `str.strip()` on a character list. -/
def pyStrip (l : List Char) : List Char := pyRstrip (pyLstrip l)

/-- Python `str.split(sep)` for a single-character separator: splits on every
occurrence, never returns an empty list. -/
def pySplit (sep : Char) : List Char → List (List Char)
  | [] => [[]]
  | c :: cs =>
    match pySplit sep cs with
    | [] => [[c]]
    | x :: xs => if c = sep then [] :: x :: xs else (c :: x) :: xs

/-- Python `sep.join(parts)`. -/
def joinSep (sep : List Char) : List (List Char) → List Char
  | [] => []
  | [x] => x
  | x :: y :: xs => x ++ sep ++ joinSep sep (y :: xs)

/-- Python `str.lower()` (ASCII case folding, which covers every string the
codec compares: `null`, `true`, `false`). -/
def pyLower (l : List Char) : List Char := l.map Char.toLower

/-- Python `str.isdigit()` restricted to ASCII digits (the only digits the
codec's numeric literals contain): true iff nonempty and all digits. -/
def pyIsDigit (l : List Char) : Bool := !l.isEmpty && l.all Char.isDigit

/-- Numeric value of an ASCII digit string, i.e. Python `int(s)` on a string
for which `s.isdigit()` holds. -/
def digitsToNat (l : List Char) : Nat :=
  l.foldl (fun acc c => 10 * acc + (c.toNat - '0'.toNat)) 0

/-- Python `s.replace('"', '""')`: double every quote. -/
def escQuotes : List Char → List Char
  | [] => []
  | c :: cs => if c = '"' then '"' :: '"' :: escQuotes cs else c :: escQuotes cs

/-- Python `s.replace('\n', '\\n')`: newline becomes backslash-n. -/
def escNewlines : List Char → List Char
  | [] => []
  | c :: cs => if c = '\n' then '\\' :: 'n' :: escNewlines cs else c :: escNewlines cs

/-- Python `s.replace('""', '"')`: collapse doubled quotes, scanning left to
right without overlap. -/
def unescQuotes : List Char → List Char
  | '"' :: '"' :: cs => '"' :: unescQuotes cs
  | c :: cs => c :: unescQuotes cs
  | [] => []

/-- Python `s.replace('\\n', '\n')`: backslash-n becomes a newline. -/
def unescNewlines : List Char → List Char
  | '\\' :: 'n' :: cs => '\n' :: unescNewlines cs
  | c :: cs => c :: unescNewlines cs
  | [] => []

/-- Python `s.replace('.', '')`. -/
def removeDots (l : List Char) : List Char := l.filter (fun c => c ≠ '.')

/-- Python `s.replace('-', '')`. -/
def removeMinus (l : List Char) : List Char := l.filter (fun c => c ≠ '-')

/-- Decimal digit characters of a natural number, most significant first
(Python `str(n)` for `n ≥ 0`).  Recursion on a fuel bound: `n` itself
bounds the number of divisions by ten. -/
def natCharsF : Nat → Nat → List Char
  | 0, _ => []
  | f + 1, n =>
    if n < 10 then [Char.ofNat ('0'.toNat + n)]
    else natCharsF f (n / 10) ++ [Char.ofNat ('0'.toNat + n % 10)]

/-- Decimal digit characters of a natural number (Python `str(n)`, `n ≥ 0`). -/
def natChars (n : Nat) : List Char := natCharsF (n + 1) n

/-- Python `str(n)` for an `int`. -/
def intChars (n : Int) : List Char :=
  if n < 0 then '-' :: natChars n.natAbs else natChars n.natAbs

/-- Python `str(x)` for a `float` modelled as `m / 10 ^ e`: integer part,
dot, fraction part zero-padded to `e` digits; an integral float prints a
trailing `.0` exactly as Python does. -/
def floatChars (m : Int) (e : Nat) : List Char :=
  if e = 0 then (if m < 0 then ['-'] else []) ++ natChars m.natAbs ++ ['.', '0']
  else
    (if m < 0 then ['-'] else []) ++ natChars (m.natAbs / 10 ^ e) ++
      '.' :: (List.replicate (e - (natChars (m.natAbs % 10 ^ e)).length) '0' ++
        natChars (m.natAbs % 10 ^ e))

example : natChars 0 = ['0'] := rfl
example : natChars 120 = ['1', '2', '0'] := rfl
example : intChars (-35) = ['-', '3', '5'] := rfl
example : floatChars (-5) 1 = ['-', '0', '.', '5'] := rfl
example : floatChars 30 1 = ['3', '.', '0'] := rfl
example : pySplit '\n' "a\nb".toList = [['a'], ['b']] := rfl
example : pyStrip "  a b \n".toList = ['a', ' ', 'b'] := rfl

/-- Quote character, written by code point to keep source text simple. -/
def sqChar : Char := Char.ofNat 39

/-- Escaping used inside Python `repr` of a string, for the chosen quote
character `q`: backslash, the quote, newline, carriage return and tab are
escaped; other printable characters pass through (the unprintable-character
escapes of full Python `repr` are not reachable through this codec's
renderings and are not modelled). -/
def reprEsc (q : Char) : List Char → List Char
  | [] => []
  | c :: cs =>
    (if c = '\\' then ['\\', '\\']
     else if c = q then ['\\', q]
     else if c = '\n' then ['\\', 'n']
     else if c = '\r' then ['\\', 'r']
     else if c = '\t' then ['\\', 't']
     else [c]) ++ reprEsc q cs

/-- Python `repr` of a string: single quotes, switching to double quotes when
the string contains a single quote but no double quote. -/
def pyReprStr (s : List Char) : List Char :=
  let q := if s.contains sqChar && !s.contains '"' then '"' else sqChar
  q :: reprEsc q s ++ [q]

mutual
/-- Python `str(x)`.  For containers `str` coincides with `repr`; note that
`str(True)` is `"True"` and `str(None)` is `"None"`, capitalised. -/
def pyStrV : Value → List Char
  | .null => "None".toList
  | .bool b => if b then "True".toList else "False".toList
  | .int n => intChars n
  | .float m e => floatChars m e
  | .str s => s.toList
  | .obj f => '\x7b' :: joinSep ", ".toList (pyReprEntries f) ++ ['\x7d']
  | .arr l => '[' :: joinSep ", ".toList (pyReprItems l) ++ [']']

/-- Python `repr(x)`. -/
def pyReprV : Value → List Char
  | .null => "None".toList
  | .bool b => if b then "True".toList else "False".toList
  | .int n => intChars n
  | .float m e => floatChars m e
  | .str s => pyReprStr s.toList
  | .obj f => '\x7b' :: joinSep ", ".toList (pyReprEntries f) ++ ['\x7d']
  | .arr l => '[' :: joinSep ", ".toList (pyReprItems l) ++ [']']

/-- Rendered `repr(key): repr(value)` entries of a Python dict. -/
def pyReprEntries : List (String × Value) → List (List Char)
  | [] => []
  | (k, v) :: rest => (pyReprStr k.toList ++ ':' :: ' ' :: pyReprV v) :: pyReprEntries rest

/-- Rendered `repr(item)` elements of a Python list. -/
def pyReprItems : List Value → List (List Char)
  | [] => []
  | v :: rest => pyReprV v :: pyReprItems rest
end

/-- Escaping of Python `json.dumps` inside a string literal: quote,
backslash, newline, tab, carriage return, backspace and form feed (the
`\uXXXX` escapes for other control and non-ASCII characters are not
modelled; no claim depends on the fallback serialisation beyond its first
character). -/
def jsonEsc : List Char → List Char
  | [] => []
  | c :: cs =>
    (if c = '"' then ['\\', '"']
     else if c = '\\' then ['\\', '\\']
     else if c = '\n' then ['\\', 'n']
     else if c = '\t' then ['\\', 't']
     else if c = '\r' then ['\\', 'r']
     else if c = '\x08' then ['\\', 'b']
     else if c = '\x0c' then ['\\', 'f']
     else [c]) ++ jsonEsc cs

/-- Layout of a JSON container body: `ind = none` is the compact
`json.dumps` style (items joined by a comma and space); `ind = some n` is
`json.JSONEncoder(indent=n)` style (each item on its own line, indented). -/
def jsonWrap (ind : Option Nat) (lvl : Nat) (parts : List (List Char)) : List Char :=
  match ind with
  | none => joinSep ", ".toList parts
  | some n =>
    let pad := List.replicate (n * (lvl + 1)) ' '
    '\n' :: pad ++ joinSep (',' :: '\n' :: pad) parts ++ '\n' :: List.replicate (n * lvl) ' '

mutual
/-- Python `json` rendering of a value (`json.dumps` when `ind = none`,
`json.JSONEncoder(indent=n).encode` when `ind = some n`). -/
def jsonV (ind : Option Nat) (lvl : Nat) : Value → List Char
  | .null => "null".toList
  | .bool b => if b then "true".toList else "false".toList
  | .int n => intChars n
  | .float m e => floatChars m e
  | .str s => '"' :: jsonEsc s.toList ++ ['"']
  | .obj [] => ['\x7b', '\x7d']
  | .arr [] => ['[', ']']
  | .obj f => '\x7b' :: jsonWrap ind lvl (jsonEntries ind (lvl + 1) f) ++ ['\x7d']
  | .arr l => '[' :: jsonWrap ind lvl (jsonItems ind (lvl + 1) l) ++ [']']

/-- Rendered `"key": value` entries of a JSON object. -/
def jsonEntries (ind : Option Nat) (lvl : Nat) : List (String × Value) → List (List Char)
  | [] => []
  | (k, v) :: rest =>
    ('"' :: jsonEsc k.toList ++ '"' :: ':' :: ' ' :: jsonV ind lvl v) :: jsonEntries ind lvl rest

/-- Rendered elements of a JSON array. -/
def jsonItems (ind : Option Nat) (lvl : Nat) : List Value → List (List Char)
  | [] => []
  | v :: rest => jsonV ind lvl v :: jsonItems ind lvl rest
end

/-- Configuration for TOON encoding (`TOONConfig`, lines 27-34), with the
dataclass defaults. -/
structure TOONConfig where
  indent_size : Nat := 2
  use_commas : Bool := true
  compact_strings : Bool := false
  max_nesting_depth : Nat := 3
  prefer_arrays : Bool := true

/-- The default configuration, as built by `TOONConfig()`. -/
def defaultConfig : TOONConfig := TOONConfig.mk 2 true false 3 true

example : pyStrV (.obj [("a", .int 1)]) = '\x7b' :: sqChar :: 'a' :: sqChar :: ':' :: ' ' :: '1' :: ['\x7d'] := rfl
example : jsonV none 0 (.obj [("a", .int 1)]) = "\x7b\"a\": 1\x7d".toList := rfl
example : String.mk (jsonV (some 2) 0 (.arr [.int 1, .int 2])) = "[\n  1,\n  2\n]" := rfl

mutual
/-- Structural size of a value, used as the recursion-depth bound supplied to
the encoder (every encoder self-call descends into a strict subvalue, so the
bound is never exhausted). -/
def vsize : Value → Nat
  | .null => 1
  | .bool _ => 1
  | .int _ => 1
  | .float _ _ => 1
  | .str _ => 1
  | .obj f => 1 + fsize f
  | .arr l => 1 + lsize l

/-- Structural size of an object's field list. -/
def fsize : List (String × Value) → Nat
  | [] => 0
  | (_, v) :: rest => 1 + vsize v + fsize rest

/-- Structural size of an array's element list. -/
def lsize : List Value → Nat
  | [] => 0
  | v :: rest => 1 + vsize v + lsize rest
end

/-- Python `obj.get(col, "")` for a dict-valued `Value` (`_encode_uniform_array`
line 194 and `_encode_tabular_object` line 115); the non-object case is
unreachable at both call sites. -/
def dictGet (v : Value) (k : String) : Value :=
  match v with
  | .obj f => (f.lookup k).getD (.str "")
  | _ => .str ""

/-- TOONEncoder._is_tabular, lines 80-86: exactly one entry and its value is
a list (emptiness of the list is not checked here). -/
def is_tabular (fields : List (String × Value)) : Bool :=
  match fields with
  | [(_, .arr _)] => true
  | _ => false

/-- Python `set(a) == set(b)` for two key lists. -/
def keySetEq (a b : List String) : Bool :=
  a.all (fun k => b.contains k) && b.all (fun k => a.contains k)

/-- TOONEncoder._is_uniform_array, lines 163-180: false when the array has at
most one element or its first element is not a dict; otherwise every later
element must be a dict whose key set equals the first element's key set. -/
def is_uniform_array (arrv : List Value) : Bool :=
  if arrv.length ≤ 1 then false
  else
    match arrv with
    | .obj f0 :: rest =>
      rest.all (fun item =>
        match item with
        | .obj f => keySetEq (f.map Prod.fst) (f0.map Prod.fst)
        | _ => false)
    | _ => false

/-- Field rendering in TOONEncoder._encode_uniform_array, lines 193-202: a
string containing a comma or a newline is quoted with internal quotes doubled
and newlines turned into backslash-n; `None` renders as `null`; anything else
renders as Python `str`. -/
def row_field (v : Value) : List Char :=
  match v with
  | .str s =>
    if s.toList.contains ',' || s.toList.contains '\n' then
      '"' :: escNewlines (escQuotes s.toList) ++ ['"']
    else s.toList
  | .null => "null".toList
  | _ => pyStrV v

/-- TOONEncoder._encode_uniform_array, lines 182-205: bare tabular header
`[N]{cols}:` followed by one indented comma-joined row per element.  The
column list comes from the first element, which the caller guarantees (via
`_is_uniform_array`) to be an object. -/
def encode_uniform_array (arrv : List Value) : List Char :=
  match arrv with
  | [] => "[]".toList
  | _ =>
    let columns : List String :=
      match arrv with
      | .obj f :: _ => f.map Prod.fst
      | _ => []
    let header := '[' :: natChars arrv.length ++ [']', '\x7b'] ++
      joinSep [','] (columns.map String.toList) ++ ['\x7d', ':']
    let rows := arrv.map (fun item =>
      ' ' :: ' ' :: joinSep [','] (columns.map (fun col => row_field (dictGet item col))))
    header ++ '\n' :: joinSep ['\n'] rows

/-- Field rendering in TOONEncoder._encode_tabular_object, lines 113-118:
this sibling path quotes a string containing a comma or a space, without
doubling quotes or escaping newlines, and renders every other value
(including `None`, which becomes `None`) with Python `str`. -/
def tab_row_field (v : Value) : List Char :=
  match v with
  | .str s =>
    if s.toList.contains ',' || s.toList.contains ' ' then '"' :: s.toList ++ ['"']
    else s.toList
  | _ => pyStrV v

/-- The search loop of TOONEncoder._encode_tabular_object, lines 91-98: the
first entry whose value is a non-empty list. -/
def findArrayEntry : List (String × Value) → Option (String × List Value)
  | [] => none
  | (k, .arr (x :: xs)) :: _ => some (k, x :: xs)
  | _ :: rest => findArrayEntry rest

/-- TOONEncoder._encode_string, lines 207-214: bare only when
`compact_strings` is set and the string avoids comma, newline, colon and
space; otherwise quoted with quotes doubled and newlines escaped. -/
def encode_string (cfg : TOONConfig) (s : List Char) : List Char :=
  if cfg.compact_strings && !(s.contains ',' || s.contains '\n' || s.contains ':' || s.contains ' ') then s
  else '"' :: escNewlines (escQuotes s) ++ ['"']

/-- TOONEncoder._encode_simple_value, lines 216-227: `None` to `null`,
booleans lower-cased, numbers via `str`, strings via `_encode_string`; the
trailing `json.dumps` branch is unreachable from the caller, which only
passes scalars. -/
def encode_simple_value (cfg : TOONConfig) (v : Value) : List Char :=
  match v with
  | .null => "null".toList
  | .bool b => if b then "true".toList else "false".toList
  | .int n => intChars n
  | .float m e => floatChars m e
  | .str s => encode_string cfg s.toList
  | v => jsonV none 0 v

/-- Line building of TOONEncoder._encode_simple_object, lines 125-146,
parameterised by the recursive renderers for nested objects and arrays
(`_encode_object` and `_encode_array`): scalars are inlined after `key: `;
a non-empty dict or list value is rendered recursively on a new line behind
one indent (only the first line of the nested rendering is indented, exactly
as the f-string on lines 136/142 does); an empty dict or list value falls to
the `json.dumps` branch since `max_nesting_depth > 0` is a constant test. -/
def simple_object_lines (encObj : List (String × Value) → List Char)
    (encArr : List Value → List Char) (cfg : TOONConfig) :
    List (String × Value) → List (List Char)
  | [] => []
  | (key, value) :: rest =>
    let indent := List.replicate cfg.indent_size ' '
    let line :=
      match value with
      | .str _ | .int _ | .float _ _ | .bool _ | .null =>
        key.toList ++ ':' :: ' ' :: encode_simple_value cfg value
      | .obj f =>
        if !f.isEmpty && cfg.max_nesting_depth > 0 then
          key.toList ++ ':' :: '\n' :: indent ++ encObj f
        else key.toList ++ ':' :: ' ' :: jsonV none 0 value
      | .arr l =>
        if !l.isEmpty && cfg.max_nesting_depth > 0 then
          key.toList ++ ':' :: '\n' :: indent ++ encArr l
        else key.toList ++ ':' :: ' ' :: jsonV none 0 value
    line :: simple_object_lines encObj encArr cfg rest

/-- TOONEncoder._encode_simple_object, lines 125-146. -/
def encode_simple_object (encObj : List (String × Value) → List Char)
    (encArr : List Value → List Char) (cfg : TOONConfig)
    (fields : List (String × Value)) : List Char :=
  joinSep ['\n'] (simple_object_lines encObj encArr cfg fields)

/-- TOONEncoder._encode_tabular_object, lines 88-123.  Note that line 107 of
the source is a Python syntax error (a stray `]` inside the f-string
replacement field `{len(array_value)]}`); the embedding renders the evidently
intended header `key[N]{cols}:`.  When no entry holds a non-empty list, or
the found list's first element is not a dict, the function falls back to
`_encode_simple_object`; non-dict row items are skipped (line 112). -/
def encode_tabular_object (encObj : List (String × Value) → List Char)
    (encArr : List Value → List Char) (cfg : TOONConfig)
    (fields : List (String × Value)) : List Char :=
  match findArrayEntry fields with
  | none => encode_simple_object encObj encArr cfg fields
  | some (key, arrv) =>
    match arrv with
    | .obj f0 :: _ =>
      let columns := f0.map Prod.fst
      let header := key.toList ++ '[' :: natChars arrv.length ++ [']', '\x7b'] ++
        joinSep [','] (columns.map String.toList) ++ ['\x7d', ':']
      let rows := arrv.filterMap (fun item =>
        match item with
        | .obj _ => some (' ' :: ' ' :: joinSep [','] (columns.map (fun col => tab_row_field (dictGet item col))))
        | _ => none)
      header ++ '\n' :: joinSep ['\n'] rows
    | _ => encode_simple_object encObj encArr cfg fields

/-- TOONEncoder._encode_object, lines 69-78: empty dict renders as `{}`,
a tabular wrapper goes to `_encode_tabular_object`, anything else to
`_encode_simple_object`. -/
def encode_object (encObj : List (String × Value) → List Char)
    (encArr : List Value → List Char) (cfg : TOONConfig)
    (fields : List (String × Value)) : List Char :=
  if fields.isEmpty then ['\x7b', '\x7d']
  else if is_tabular fields then encode_tabular_object encObj encArr cfg fields
  else encode_simple_object encObj encArr cfg fields

/-- Line building of the non-uniform branch of TOONEncoder._encode_array,
lines 157-161: `index: encoded-element`. -/
def array_lines (encV : Value → List Char) : Nat → List Value → List (List Char)
  | _, [] => []
  | i, item :: rest => (natChars i ++ ':' :: ' ' :: encV item) :: array_lines encV (i + 1) rest

/-- TOONEncoder._encode_array, lines 148-161: empty array renders as `[]`,
a uniform array goes to the tabular rendering, anything else to indexed
lines. -/
def encode_array (encV : Value → List Char) (cfg : TOONConfig) (l : List Value) : List Char :=
  if l.isEmpty then "[]".toList
  else if is_uniform_array l then encode_uniform_array l
  else joinSep ['\n'] (array_lines encV 0 l)

/-- TOONEncoder.encode, lines 43-67, with the recursion made structural on a
depth bound: each self-call (through `_encode_object` or `_encode_array`)
works on a strict subvalue, so the `vsize`-based bound supplied by `encode`
is never exhausted.  `_get_data_type` (lines 229-244) tests
`isinstance(data, (int, float))` before ever reaching its boolean case and
Python `bool` is a subclass of `int`, so booleans classify as NUMBER; both
NUMBER and BOOLEAN render via `str(data)` (line 65), capitalising `True`. -/
def encodeF (cfg : TOONConfig) : Nat → Value → List Char
  | 0, _ => []
  | fuel + 1, v =>
    match v with
    | .null => "null".toList
    | .obj fields =>
      encode_object (fun g => encodeF cfg fuel (.obj g)) (fun l => encodeF cfg fuel (.arr l)) cfg fields
    | .arr l => encode_array (fun w => encodeF cfg fuel w) cfg l
    | .str s => encode_string cfg s.toList
    | .int _ | .float _ _ | .bool _ => pyStrV v

/-- TOONEncoder.encode, lines 43-67 (boundary wrapper). -/
def encode (cfg : TOONConfig) (v : Value) : String :=
  String.mk (encodeF cfg (vsize v + 1) v)

example : encode defaultConfig (.bool true) = "True" := rfl
example : encode defaultConfig .null = "null" := rfl
example : encode defaultConfig (.arr [.obj [("id", .int 1)], .obj [("id", .int 2)]]) =
    "[2]\x7bid\x7d:\n  1\n  2" := rfl
example : encode defaultConfig (.obj [("a", .int 1), ("b", .obj [("c", .int 2)])]) =
    "a: 1\nb:\n  c: 2" := rfl
example : encode defaultConfig (.obj [("k", .arr [])]) = "k: []" := rfl

/-- Decoder failure: the `ValueError` Python's `float(...)` raises inside
`_convert_value` / `_parse_value` when the guarded string is not a valid
float literal (e.g. `1-2`).  No other exception is reachable in the
decoder, and `MalformedInput` appears nowhere in the source. -/
inductive DecodeErr where
  | valueError : DecodeErr
  deriving DecidableEq

/-- TOONDecoder._is_tabular_format, lines 273-277: brackets, braces and a
trailing colon on the first line. -/
def is_tabular_format (first : List Char) : Bool :=
  first.contains '[' && first.contains ']' &&
  first.contains '\x7b' && first.contains '\x7d' &&
  (match first.reverse with
   | ':' :: _ => true
   | _ => false)

/-- Greedy search for the third regex group: given the reversal of the text
following `{`, find the last occurrence of the two characters `}:` that has
at least one character before it, and return those preceding characters (the
column-list capture of `(.+)\}:`). -/
def findColsRev : List Char → Option (List Char)
  | ':' :: '\x7d' :: rest =>
    if rest.isEmpty then findColsRev ('\x7d' :: rest) else some rest.reverse
  | _ :: rest => findColsRev rest
  | [] => none

/-- Match of `(\d+)\]\{(.+)\}:` at the start of a line suffix: a maximal
nonempty digit run, the two delimiter characters, then the greedy column
capture. -/
def parseAfterBracket (l : List Char) : Option (List Char × List Char) :=
  let d := l.takeWhile Char.isDigit
  match l.dropWhile Char.isDigit with
  | ']' :: '\x7b' :: rest2 =>
    if d.isEmpty then none
    else (findColsRev rest2.reverse).map (fun cols => (d, cols))
  | _ => none

/-- Candidate matches of the header pattern, preferring the rightmost `[`
whose tail parses (the greedy behaviour of the leading `(.+)`): each
recursive success prepends the current character to the key capture. -/
def reHeaderCore : List Char → Option (List Char × List Char × List Char)
  | [] => none
  | c :: rest =>
    match reHeaderCore rest with
    | some (k, d, cols) => some (c :: k, d, cols)
    | none =>
      if c = '[' then
        match parseAfterBracket rest with
        | some (d, cols) => some ([], d, cols)
        | none => none
      else none

/-- Python `re.match(r'^(.+)\[(\d+)\]\{(.+)\}:', header)` of
TOONDecoder._decode_tabular, line 286: all three groups greedy, the leading
key capture nonempty, and the match free to end before the end of the line
(the pattern has no trailing anchor).  Header lines contain no newline, so
the difference between `.` and "any character" is immaterial. -/
def reMatchHeader (l : List Char) : Option (List Char × List Char × List Char) :=
  match reHeaderCore l with
  | some ([], _, _) => none
  | r => r

example : reMatchHeader "items[2]\x7bid,name\x7d:".toList =
    some ("items".toList, ['2'], "id,name".toList) := rfl
example : reMatchHeader "[2]\x7bid\x7d:".toList = none := rfl
example : reMatchHeader "a[1]b[2]\x7bc\x7d:".toList =
    some ("a[1]b".toList, ['2'], ['c']) := rfl

/-- TOONDecoder._parse_csv_line, lines 311-333: the character loop with its
`in_quotes` toggle; a quote flips the mode and is itself dropped, a comma
outside quotes ends the current field. -/
def parse_csv_aux : Bool → List Char → List (List Char) → List Char → List (List Char)
  | _, current, values, [] => values ++ [current]
  | true, current, values, c :: rest =>
    if c = '"' then parse_csv_aux false current values rest
    else parse_csv_aux true (current ++ [c]) values rest
  | false, current, values, c :: rest =>
    if c = '"' then parse_csv_aux true current values rest
    else if c = ',' then parse_csv_aux false [] (values ++ [current]) rest
    else parse_csv_aux false (current ++ [c]) values rest

/-- TOONDecoder._parse_csv_line, lines 311-333 (entry point). -/
def parse_csv_line (l : List Char) : List (List Char) :=
  parse_csv_aux false [] [] l

/-- Python `float(value)` at the two call sites that guard it with
`value.replace('.', '').replace('-', '').isdigit()`: the argument consists
of digits, dots and minus signs and contains at least one digit.  The
literal is valid exactly when any minus sign is a single leading one and
there is at most one dot; otherwise `float` raises `ValueError`.  (The
whitespace, exponent and inf/nan forms Python's `float` also accepts cannot
pass the call-site guard.)  The result is normalised by dropping trailing
zero digits of the fraction, matching Python float equality. -/
def pyFloat (l : List Char) : Except DecodeErr Value :=
  let neg : Bool := match l with
    | '-' :: _ => true
    | _ => false
  let body := if neg then l.drop 1 else l
  if body.all (fun c => c.isDigit || c = '.') && body.count '.' ≤ 1 && body.any Char.isDigit then
    let ip := body.takeWhile (fun c => c ≠ '.')
    let fpRaw := (body.dropWhile (fun c => c ≠ '.')).drop 1
    let fp := (fpRaw.reverse.dropWhile (fun c => c = '0')).reverse
    let m : Int := ((digitsToNat ip) * 10 ^ fp.length + digitsToNat fp : Nat)
    .ok (.float (if neg then -m else m) fp.length)
  else .error .valueError

example : pyFloat "-5".toList = .ok (.float (-5) 0) := rfl
example : pyFloat "3.50".toList = .ok (.float 35 1) := rfl
example : pyFloat "1-2".toList = .error .valueError := rfl

/-- TOONDecoder._convert_value, lines 335-348: `null`/`true`/`false`
case-insensitively, then all-digit integers, then the dot/minus digit guard
into `float(...)`, else the literal string. -/
def convert_value (l : List Char) : Except DecodeErr Value :=
  if pyLower l = "null".toList then .ok .null
  else if pyLower l = "true".toList then .ok (.bool true)
  else if pyLower l = "false".toList then .ok (.bool false)
  else if pyIsDigit l then .ok (.int (digitsToNat l))
  else if pyIsDigit (removeMinus (removeDots l)) then pyFloat l
  else .ok (.str (String.mk l))

/-- Python dict insertion semantics for an association list: assigning to an
existing key updates the value in place, a new key is appended. -/
def dictInsert {α : Type} : List (String × α) → String → α → List (String × α)
  | [], k, v => [(k, v)]
  | (k', v') :: rest, k, v =>
    if k' = k then (k, v) :: rest else (k', v') :: dictInsert rest k v

/-- Python `dict(pairs)`: left-to-right insertion. -/
def dictOfPairs {α : Type} (ps : List (String × α)) : List (String × α) :=
  ps.foldl (fun m kv => dictInsert m kv.1 kv.2) []

/-- The conversion loop of TOONDecoder._decode_tabular, lines 304-305
(`for k, v in obj.items(): obj[k] = self._convert_value(v)`), raising at the
first bad value. -/
def convertEntries : List (String × List Char) → Except DecodeErr (List (String × Value))
  | [] => .ok []
  | (k, v) :: rest => do
    let w ← convert_value v
    let ws ← convertEntries rest
    .ok ((k, w) :: ws)

/-- The row loop of TOONDecoder._decode_tabular, lines 294-307: strip each
line, skip empties, CSV-split, zip against the columns positionally
(truncating at the shorter), build a dict, convert every value. -/
def parseRows (columns : List String) : List (List Char) → Except DecodeErr (List Value)
  | [] => .ok []
  | line :: rest =>
    let l := pyStrip line
    if l.isEmpty then parseRows columns rest
    else do
      let values := parse_csv_line l
      let d := dictOfPairs (columns.zip values)
      let entries ← convertEntries d
      let more ← parseRows columns rest
      .ok (.obj entries :: more)

/-- TOONDecoder._parse_value, lines 394-415: an empty accumulation is the
empty string; a single line is unquoted/unescaped when wrapped in quotes and
otherwise runs through the same inference chain as `_convert_value`;
multiple lines join with single spaces and stay a string. -/
def parse_value (valueList : List (List Char)) : Except DecodeErr Value :=
  match valueList with
  | [] => .ok (.str "")
  | [v] =>
    if (match v with | '"' :: _ => true | _ => false) &&
       (match v.reverse with | '"' :: _ => true | _ => false) then
      .ok (.str (String.mk (unescNewlines (unescQuotes (v.drop 1).dropLast))))
    else if pyLower v = "null".toList then .ok .null
    else if pyLower v = "true".toList then .ok (.bool true)
    else if pyLower v = "false".toList then .ok (.bool false)
    else if pyIsDigit v then .ok (.int (digitsToNat v))
    else if pyIsDigit (removeMinus (removeDots v)) then pyFloat v
    else .ok (.str (String.mk v))
  | vs => .ok (.str (String.mk (joinSep [' '] vs)))

/-- Saving step of TOONDecoder._decode_key_value (lines 367-368 and
389-390): parse the accumulated value and store it under the current key,
when there is one. -/
def dkvSave (result : List (String × Value)) (curKey : Option String)
    (curVal : List (List Char)) : Except DecodeErr (List (String × Value)) :=
  match curKey with
  | none => .ok result
  | some k => do
    let v ← parse_value curVal
    .ok (dictInsert result k v)

/-- The line loop of TOONDecoder._decode_key_value, lines 357-386: each line
is right-stripped; a blank line extends a multiline value with an empty
string; a line containing `:` that is not indented by two spaces or a tab
starts a new key (saving the previous one) with either an inline value or a
multiline accumulation; anything else is a left-stripped continuation. -/
def dkvLoop (result : List (String × Value)) (curKey : Option String)
    (curVal : List (List Char)) (inMulti : Bool) :
    List (List Char) → Except DecodeErr (List (String × Value))
  | [] => dkvSave result curKey curVal
  | line :: rest =>
    let l := pyRstrip line
    if l.isEmpty then
      if inMulti then dkvLoop result curKey (curVal ++ [[]]) inMulti rest
      else dkvLoop result curKey curVal inMulti rest
    else if l.contains ':' &&
        !(match l with | ' ' :: ' ' :: _ => true | _ => false) &&
        !(match l with | '\t' :: _ => true | _ => false) then do
      let result' ← dkvSave result curKey curVal
      let keyPart := l.takeWhile (fun c => c ≠ ':')
      let valPart := (l.dropWhile (fun c => c ≠ ':')).drop 1
      let key := String.mk (pyStrip keyPart)
      let vp := pyStrip valPart
      if vp.isEmpty then dkvLoop result' (some key) [] true rest
      else dkvLoop result' (some key) [vp] false rest
    else
      dkvLoop result curKey (curVal ++ [pyLstrip l]) inMulti rest

/-- TOONDecoder._decode_key_value, lines 350-392: run the loop and return
the accumulated dict. -/
def decode_key_value (lines : List (List Char)) : Except DecodeErr Value :=
  match dkvLoop [] none [] false lines with
  | .error e => .error e
  | .ok r => .ok (.obj r)

/-- TOONDecoder._decode_tabular, lines 279-309: when the header regex
matches, split and strip the column list, parse the rows and wrap them in a
single-key dict under the stripped key capture; when it does not match, fall
back to `_decode_key_value` on all lines. -/
def decode_tabular (lines : List (List Char)) : Except DecodeErr Value :=
  match lines with
  | [] => .ok (.obj [])
  | header :: rest =>
    match reMatchHeader header with
    | none => decode_key_value (header :: rest)
    | some (key, _count, colsStr) =>
      match parseRows ((pySplit ',' colsStr).map (fun c => String.mk (pyStrip c))) rest with
      | .error e => .error e
      | .ok rows => .ok (.obj [(String.mk (pyStrip key), .arr rows)])

/-- TOONDecoder.decode, lines 253-271: strip, split into lines, dispatch on
the tabular look of the first line.  Python `str.split('\n')` never returns
an empty list, so the `if not lines: return None` branch (line 264) is dead;
it is embedded nonetheless. -/
def decode (s : String) : Except DecodeErr Value :=
  match pySplit '\n' (pyStrip s.toList) with
  | [] => .ok .null
  | first :: rest =>
    if is_tabular_format first then decode_tabular (first :: rest)
    else decode_key_value (first :: rest)

example : decode "" = .ok (.obj []) := rfl
example : decode "items[2]\x7bid,name\x7d:\n  1,Alice\n  2,Bob" =
    .ok (.obj [("items", .arr [.obj [("id", .int 1), ("name", .str "Alice")],
                               .obj [("id", .int 2), ("name", .str "Bob")]])]) := rfl
example : decode "[2]\x7bid\x7d:\n  1\n  2" =
    .ok (.obj [("[2]\x7bid\x7d", .str "1 2")]) := rfl
example : decode "k[1]\x7bc\x7d:\n  1-2" = .error .valueError := rfl
example : decode "a: 1\nb: true\nc: x" =
    .ok (.obj [("a", .int 1), ("b", .bool true), ("c", .str "x")]) := rfl

/-- DroidTOONIntegration._is_toon_suitable, lines 463-473: a list is suitable
when longer than one with its first three items all dicts; a dict is
suitable when some value is a list longer than one. -/
def is_toon_suitable (data : Value) : Bool :=
  match data with
  | .arr l =>
    l.length > 1 && (l.take 3).all (fun item =>
      match item with
      | .obj _ => true
      | _ => false)
  | .obj f =>
    (f.countP (fun kv =>
      match kv.2 with
      | .arr l => l.length > 1
      | _ => false)) > 0
  | _ => false

/-- The loop of DroidTOONIntegration._should_use_toon, lines 455-458: the
first dict value that is a list longer than two — the loop returns on the
first such value, whatever the suitability verdict. -/
def firstBigList : List (String × Value) → Option (List Value)
  | [] => none
  | (_, .arr l) :: rest => if l.length > 2 then some l else firstBigList rest
  | _ :: rest => firstBigList rest

/-- DroidTOONIntegration._should_use_toon, lines 448-461: in the
`tool_result` context, suitability decides; otherwise the first big list
value decides; the final `return False and ...` is constantly false. -/
def should_use_toon (data : Value) (context : String) : Bool :=
  if context = "tool_result" then is_toon_suitable data
  else
    match data with
    | .obj f =>
      match firstBigList f with
      | some l => is_toon_suitable (.arr l)
      | none => false
    | _ => false

/-- The marker token of the spec's format-marker contract. -/
def markerChars : List Char := "// TOON format".toList

/-- DroidTOONIntegration._format_toon, lines 475-478: the comment line
followed by the TOON encoding. -/
def format_toon (cfg : TOONConfig) (data : Value) : String :=
  String.mk ("// TOON format - 30-60% token reduction\n".toList ++ (encode cfg data).toList)

/-- DroidTOONIntegration._format_json, lines 480-482: the
`json.JSONEncoder(indent=2)` rendering. -/
def format_json (data : Value) : String :=
  String.mk (jsonV (some 2) 0 data)

/-- DroidTOONIntegration.format_for_droid, lines 431-446. -/
def format_for_droid (cfg : TOONConfig) (data : Value) (context : String) : String :=
  if should_use_toon data context then format_toon cfg data else format_json data

/-- The non-TOON branch of DroidTOONIntegration.parse_droid_response, lines
499-505: `json.loads` with a fallback to the raw string on
`JSONDecodeError`.  The Python `json` standard library is external to the
repository; it is passed in as the `jsonLoads` parameter (the spec treats
the structured fallback as an external, uninterpreted serialisation). -/
def json_fallback (jsonLoads : String → Option Value) (response : String) :
    Except DecodeErr Value :=
  match jsonLoads response with
  | some v => .ok v
  | none => .ok (.str response)

/-- DroidTOONIntegration.parse_droid_response, lines 484-505: when the
stripped response starts with the marker token, drop the first raw line and
decode the rest as TOON; otherwise use the external JSON path.  (The class
statement on line 418 contains a stray space — a Python syntax error — but
the method bodies themselves are well formed and are embedded as written.) -/
def parse_droid_response (jsonLoads : String → Option Value) (response : String) :
    Except DecodeErr Value :=
  if markerChars.isPrefixOf (pyStrip response.toList) then
    decode (String.mk (joinSep ['\n'] ((pySplit '\n' response.toList).drop 1)))
  else json_fallback jsonLoads response

/-- Equality of values up to object-field order, the comparison relation the
spec's round-trip properties use: objects agree when they hold the same keys
with pointwise related values, arrays must agree in length and element
order, scalars must be identical. -/
inductive ValEqUpTo : Value → Value → Prop where
  | vNull : ValEqUpTo .null .null
  | vBool (b : Bool) : ValEqUpTo (.bool b) (.bool b)
  | vInt (n : Int) : ValEqUpTo (.int n) (.int n)
  | vFloat (m : Int) (e : Nat) : ValEqUpTo (.float m e) (.float m e)
  | vStr (s : String) : ValEqUpTo (.str s) (.str s)
  | vArr (a b : List Value) : a.length = b.length →
      (∀ p ∈ a.zip b, ValEqUpTo p.1 p.2) → ValEqUpTo (.arr a) (.arr b)
  | vObj (f g : List (String × Value)) :
      (∀ k, (∃ v, (k, v) ∈ f) ↔ (∃ v, (k, v) ∈ g)) →
      (∀ k v w, (k, v) ∈ f → (k, w) ∈ g → ValEqUpTo v w) →
      ValEqUpTo (.obj f) (.obj g)

example : should_use_toon (.arr [.obj [("a", .int 1)], .obj [("b", .int 2)]]) "tool_result" = true := rfl
example : format_for_droid defaultConfig (.bool true) "tool_result" = "true" := rfl
example : parse_droid_response (fun _ => none) "// TOON format\na: 1" = .ok (.obj [("a", .int 1)]) := rfl

/-! Helper lemmas shared by the claim theorems. -/

theorem pySplit_ne_nil (sep : Char) (l : List Char) : pySplit sep l ≠ [] := by
  cases l with
  | nil => simp [pySplit]
  | cons c cs =>
    simp only [pySplit]
    rcases h : pySplit sep cs with _ | ⟨x, xs⟩
    · simp
    · by_cases hc : c = sep <;> simp [hc]

theorem decode_key_value_ok_obj (lines : List (List Char)) (v : Value)
    (h : decode_key_value lines = .ok v) : ∃ m, v = .obj m := by
  unfold decode_key_value at h
  split at h
  · exact absurd h (by simp)
  · exact ⟨_, (Except.ok.inj h).symm⟩

theorem decode_tabular_ok_obj (lines : List (List Char)) (v : Value)
    (h : decode_tabular lines = .ok v) : ∃ m, v = .obj m := by
  unfold decode_tabular at h
  split at h
  · exact ⟨[], (Except.ok.inj h).symm⟩
  · split at h
    · exact decode_key_value_ok_obj _ _ h
    · split at h
      · exact absurd h (by simp)
      · exact ⟨_, (Except.ok.inj h).symm⟩

theorem decode_ok_obj (s : String) (v : Value) (h : decode s = .ok v) :
    ∃ m, v = .obj m := by
  unfold decode at h
  split at h
  · next heq => exact absurd heq (pySplit_ne_nil _ _)
  · next first rest heq =>
    by_cases ht : is_tabular_format first = true
    · rw [if_pos ht] at h
      exact decode_tabular_ok_obj _ _ h
    · rw [if_neg ht] at h
      exact decode_key_value_ok_obj _ _ h

instance : Inhabited Value := ⟨.null⟩

/-- Discriminator for object values (Python `isinstance(x, dict)`). -/
def isObjV : Value → Bool
  | .obj _ => true
  | _ => false

/-- Key list of an object value (Python `x.keys()`), empty for non-objects. -/
def objKeys : Value → List String
  | .obj f => f.map Prod.fst
  | _ => []

theorem keySetEq_iff (a b : List String) :
    keySetEq a b = true ↔ ∀ k, k ∈ a ↔ k ∈ b := by
  unfold keySetEq
  rw [Bool.and_eq_true, List.all_eq_true, List.all_eq_true]
  constructor
  · rintro ⟨hab, hba⟩ k
    constructor
    · intro hk
      exact List.elem_iff.mp (hab k hk)
    · intro hk
      exact List.elem_iff.mp (hba k hk)
  · intro h
    exact ⟨fun k hk => List.elem_iff.mpr ((h k).mp hk),
           fun k hk => List.elem_iff.mpr ((h k).mpr hk)⟩

theorem is_uniform_array_iff (l : List Value) :
    is_uniform_array l = true ↔
      2 ≤ l.length ∧ ∀ x ∈ l, isObjV x = true ∧
        ∀ k, (k ∈ objKeys x ↔ k ∈ objKeys l.headI) := by
  unfold is_uniform_array
  by_cases hlen : l.length ≤ 1
  · rw [if_pos hlen]
    simp only [Bool.false_eq_true, false_iff, not_and]
    intro h2
    omega
  · rw [if_neg hlen]
    rcases l with _ | ⟨a, tail⟩
    · simp at hlen
    · have hlen2 : 2 ≤ (a :: tail).length := by
        simp only [List.length_cons] at hlen ⊢
        omega
      cases a with
      | obj f0 =>
        rw [List.all_eq_true]
        constructor
        · intro hall
          refine ⟨hlen2, ?_⟩
          intro x hx
          rcases List.mem_cons.mp hx with rfl | hx'
          · exact ⟨rfl, fun k => Iff.rfl⟩
          · have hp := hall x hx'
            cases x with
            | obj f =>
              refine ⟨rfl, ?_⟩
              have := (keySetEq_iff (f.map Prod.fst) (f0.map Prod.fst)).mp hp
              simpa [objKeys] using this
            | null => simp at hp
            | bool b => simp at hp
            | int n => simp at hp
            | float m e => simp at hp
            | str s => simp at hp
            | arr xs => simp at hp
        · rintro ⟨-, hall⟩
          intro x hx
          have hx' := hall x (List.mem_cons_of_mem _ hx)
          cases x with
          | obj f =>
            exact (keySetEq_iff (f.map Prod.fst) (f0.map Prod.fst)).mpr
              (by simpa [objKeys] using hx'.2)
          | null => simpa [isObjV] using hx'.1
          | bool b => simpa [isObjV] using hx'.1
          | int n => simpa [isObjV] using hx'.1
          | float m e => simpa [isObjV] using hx'.1
          | str s => simpa [isObjV] using hx'.1
          | arr xs => simpa [isObjV] using hx'.1
      | null =>
        simp only [Bool.false_eq_true, false_iff, not_and]
        intro _h hall
        exact absurd (hall _ (List.mem_cons_self _ _)).1 (by simp [isObjV])
      | bool b =>
        simp only [Bool.false_eq_true, false_iff, not_and]
        intro _h hall
        exact absurd (hall _ (List.mem_cons_self _ _)).1 (by simp [isObjV])
      | int n =>
        simp only [Bool.false_eq_true, false_iff, not_and]
        intro _h hall
        exact absurd (hall _ (List.mem_cons_self _ _)).1 (by simp [isObjV])
      | float m e =>
        simp only [Bool.false_eq_true, false_iff, not_and]
        intro _h hall
        exact absurd (hall _ (List.mem_cons_self _ _)).1 (by simp [isObjV])
      | str s =>
        simp only [Bool.false_eq_true, false_iff, not_and]
        intro _h hall
        exact absurd (hall _ (List.mem_cons_self _ _)).1 (by simp [isObjV])
      | arr xs =>
        simp only [Bool.false_eq_true, false_iff, not_and]
        intro _h hall
        exact absurd (hall _ (List.mem_cons_self _ _)).1 (by simp [isObjV])

theorem toList_mk (l : List Char) : (String.mk l).toList = l := rfl

theorem not_mem_of_contains_false {c : Char} {s : List Char}
    (h : s.contains c = false) : c ∉ s := by
  intro hm
  have ht : s.contains c = true := List.elem_iff.mpr hm
  rw [ht] at h
  cases h

theorem escQuotes_of_not_mem (s : List Char) (h : '"' ∉ s) : escQuotes s = s := by
  induction s with
  | nil => rfl
  | cons c cs ih =>
    have hc : c ≠ '"' := fun hc => h (hc ▸ List.mem_cons_self _ _)
    have hcs : '"' ∉ cs := fun hm => h (List.mem_cons_of_mem _ hm)
    simp only [escQuotes, if_neg hc]
    rw [ih hcs]

theorem escNewlines_of_not_mem (s : List Char) (h : '\n' ∉ s) : escNewlines s = s := by
  induction s with
  | nil => rfl
  | cons c cs ih =>
    have hc : c ≠ '\n' := fun hc => h (hc ▸ List.mem_cons_self _ _)
    have hcs : '\n' ∉ cs := fun hm => h (List.mem_cons_of_mem _ hm)
    simp only [escNewlines, if_neg hc]
    rw [ih hcs]

theorem escQuotes_length (s : List Char) : s.length ≤ (escQuotes s).length := by
  induction s with
  | nil => simp
  | cons c cs ih =>
    simp only [escQuotes]
    by_cases hc : c = '"' <;> simp [hc] <;> omega

theorem escNewlines_length (s : List Char) : s.length ≤ (escNewlines s).length := by
  induction s with
  | nil => simp
  | cons c cs ih =>
    simp only [escNewlines]
    by_cases hc : c = '\n' <;> simp [hc] <;> omega

theorem parse_csv_aux_unquoted (s : List Char) (cur : List Char)
    (acc : List (List Char)) (h : ∀ c ∈ s, c ≠ '"' ∧ c ≠ ',') :
    parse_csv_aux false cur acc s = acc ++ [cur ++ s] := by
  induction s generalizing cur with
  | nil => simp [parse_csv_aux]
  | cons c cs ih =>
    have hc := h c (List.mem_cons_self _ _)
    have hcs : ∀ c ∈ cs, c ≠ '"' ∧ c ≠ ',' := fun x hx => h x (List.mem_cons_of_mem _ hx)
    simp only [parse_csv_aux, if_neg hc.1, if_neg hc.2]
    rw [ih (cur ++ [c]) hcs]
    simp

theorem parse_csv_aux_quoted (s : List Char) (cur : List Char)
    (acc : List (List Char)) (h : ∀ c ∈ s, c ≠ '"') :
    parse_csv_aux true cur acc (s ++ ['"']) = acc ++ [cur ++ s] := by
  induction s generalizing cur with
  | nil => simp [parse_csv_aux]
  | cons c cs ih =>
    have hc := h c (List.mem_cons_self _ _)
    have hcs : ∀ x ∈ cs, x ≠ '"' := fun x hx => h x (List.mem_cons_of_mem _ hx)
    simp only [List.cons_append, parse_csv_aux, if_neg hc, List.append_eq]
    rw [ih (cur ++ [c]) hcs]
    simp

/-- Modelled from the spec: the escaped-string rule's wrapped form — the
string in double quotes with internal quotes doubled and newlines replaced
by backslash-n (spec section 3; the same shape is produced by lines 197-198
of the source). -/
def specQuoted (s : List Char) : List Char :=
  '"' :: escNewlines (escQuotes s) ++ ['"']

theorem isPrefixOf_append_self (p t : List Char) : p.isPrefixOf (p ++ t) = true := by
  induction p with
  | nil => simp [List.isPrefixOf]
  | cons c cs ih => simp [List.isPrefixOf, ih]

theorem marker_cons_false (c : Char) (t : List Char) (h : c ≠ '/') :
    markerChars.isPrefixOf (c :: t) = false := by
  have hm : markerChars = '/' :: "/ TOON format".toList := rfl
  rw [hm]
  simp only [List.isPrefixOf, Bool.and_eq_false_iff]
  left
  exact beq_eq_false_iff_ne.mpr (Ne.symm h)

theorem marker_not_prefix_numeric (l : List Char)
    (h : ∀ c ∈ l, c.isDigit = true ∨ c = '-' ∨ c = '.') :
    markerChars.isPrefixOf l = false := by
  cases l with
  | nil => decide
  | cons c t =>
    apply marker_cons_false
    rcases h c (List.mem_cons_self _ _) with hd | rfl | rfl
    · intro hc
      rw [hc] at hd
      exact absurd hd (by decide)
    · decide
    · decide

theorem digitChar_isDigit (m : Nat) (h : m < 10) :
    (Char.ofNat ('0'.toNat + m)).isDigit = true := by
  interval_cases m <;> decide

theorem natCharsF_mem (f : Nat) : ∀ n, ∀ c ∈ natCharsF f n, c.isDigit = true := by
  induction f with
  | zero => intro n c hc; cases hc
  | succ f ih =>
    intro n c hc
    unfold natCharsF at hc
    by_cases hn : n < 10
    · rw [if_pos hn] at hc
      rcases List.mem_singleton.mp hc with rfl
      exact digitChar_isDigit n hn
    · rw [if_neg hn] at hc
      rcases List.mem_append.mp hc with hc' | hc'
      · exact ih _ c hc'
      · rcases List.mem_singleton.mp hc' with rfl
        exact digitChar_isDigit _ (Nat.mod_lt _ (by norm_num))

theorem natChars_mem (k : Nat) : ∀ c ∈ natChars k, c.isDigit = true :=
  natCharsF_mem (k + 1) k

theorem natChars_ne_nil (n : Nat) : natChars n ≠ [] := by
  unfold natChars natCharsF
  split <;> simp

theorem intChars_mem (n : Int) : ∀ c ∈ intChars n, c.isDigit = true ∨ c = '-' ∨ c = '.' := by
  intro c hc
  unfold intChars at hc
  split at hc
  · rcases List.mem_cons.mp hc with rfl | hc'
    · exact Or.inr (Or.inl rfl)
    · exact Or.inl (natChars_mem _ c hc')
  · exact Or.inl (natChars_mem _ c hc)

theorem floatChars_mem (m : Int) (e : Nat) :
    ∀ c ∈ floatChars m e, c.isDigit = true ∨ c = '-' ∨ c = '.' := by
  intro c hc
  have hsign : ∀ x ∈ (if m < 0 then ['-'] else ([] : List Char)), x = '-' := by
    split <;> simp
  unfold floatChars at hc
  split at hc
  · rcases List.mem_append.mp hc with hc1 | hc2
    · rcases List.mem_append.mp hc1 with hs | hn
      · exact Or.inr (Or.inl (hsign c hs))
      · exact Or.inl (natChars_mem _ c hn)
    · rcases List.mem_cons.mp hc2 with rfl | h0
      · exact Or.inr (Or.inr rfl)
      · rcases List.mem_singleton.mp h0 with rfl
        exact Or.inl (by decide)
  · rcases List.mem_append.mp hc with hc1 | hc2
    · rcases List.mem_append.mp hc1 with hs | hn
      · exact Or.inr (Or.inl (hsign c hs))
      · exact Or.inl (natChars_mem _ c hn)
    · rcases List.mem_cons.mp hc2 with rfl | h0
      · exact Or.inr (Or.inr rfl)
      · rcases List.mem_append.mp h0 with hr | hn
        · rcases List.eq_of_mem_replicate hr with rfl
          exact Or.inl (by decide)
        · exact Or.inl (natChars_mem _ c hn)

theorem json_not_marker (ind : Option Nat) (lvl : Nat) (v : Value) :
    markerChars.isPrefixOf (jsonV ind lvl v) = false := by
  cases v with
  | null => exact marker_cons_false 'n' _ (by decide)
  | bool b =>
    cases b with
    | false => exact marker_cons_false 'f' _ (by decide)
    | true => exact marker_cons_false 't' _ (by decide)
  | int n => exact marker_not_prefix_numeric _ (intChars_mem n)
  | float m e => exact marker_not_prefix_numeric _ (floatChars_mem m e)
  | str s => exact marker_cons_false '"' _ (by decide)
  | obj f =>
    cases f with
    | nil => exact marker_cons_false '\x7b' _ (by decide)
    | cons x xs => exact marker_cons_false '\x7b' _ (by decide)
  | arr l =>
    cases l with
    | nil => exact marker_cons_false '[' _ (by decide)
    | cons x xs => exact marker_cons_false '[' _ (by decide)

/-- Discriminator for scalar values (everything except objects and arrays). -/
def isScalarV : Value → Bool
  | .obj _ => false
  | .arr _ => false
  | _ => true

/-- C5: the uniform-array classification returns false for every array of
length less than two, false for every array containing a non-object element,
and true exactly when every element's key set equals the first element's key
set. -/
theorem C5_uniform_array_classification :
    ∀ l : List Value,
      (l.length < 2 → is_uniform_array l = false) ∧
      ((∃ x ∈ l, isObjV x = false) → is_uniform_array l = false) ∧
      (is_uniform_array l = true ↔
        2 ≤ l.length ∧ ∀ x ∈ l, isObjV x = true ∧
          ∀ k, (k ∈ objKeys x ↔ k ∈ objKeys l.headI)) := by
  intro l
  refine ⟨?_, ?_, is_uniform_array_iff l⟩
  · intro h
    rw [← Bool.not_eq_true]
    intro ht
    have := ((is_uniform_array_iff l).mp ht).1
    omega
  · rintro ⟨x, hx, hobj⟩
    rw [← Bool.not_eq_true]
    intro ht
    have := (((is_uniform_array_iff l).mp ht).2 x hx).1
    rw [hobj] at this
    cases this

/-- Witness for C5 at a concrete uniform two-element array. -/
theorem C5_witness :
    is_uniform_array [Value.obj [("id", Value.int 1)], Value.obj [("id", Value.int 2)]] = true :=
  (C5_uniform_array_classification _).2.2.mpr
    ⟨by decide, by
      intro x hx
      simp only [List.mem_cons, List.not_mem_nil, or_false] at hx
      rcases hx with rfl | rfl
      · exact ⟨rfl, fun k => Iff.rfl⟩
      · exact ⟨rfl, fun k => Iff.rfl⟩⟩

/-- C6 counterexample: the tabular-wrapper classification returns true for a
single entry holding an empty array, where the claim requires false (the
code's `_is_tabular` never inspects the array's length). -/
theorem C6_counterexample : is_tabular [("k", Value.arr [])] = true := rfl

/-- C6 amended: the tabular-wrapper classification returns true exactly when
the object has one entry whose value is an array, empty or not; the
non-empty check only happens later, in `_encode_tabular_object`, whose
search loop finds no non-empty array and falls back to the simple rendering
(so the single-empty-array object still encodes as a plain key/value
line). -/
theorem C6_is_tabular_amended :
    (∀ fields : List (String × Value),
      is_tabular fields = true ↔ ∃ k l, fields = [(k, Value.arr l)]) ∧
    encode defaultConfig (.obj [("k", Value.arr [])]) = "k: []" := by
  constructor
  · intro fields
    constructor
    · intro h
      rcases fields with _ | ⟨⟨k, v⟩, rest⟩
      · simp [is_tabular] at h
      · rcases rest with _ | ⟨y, rest'⟩
        · cases v with
          | arr l => exact ⟨k, l, rfl⟩
          | null => simp [is_tabular] at h
          | bool b => simp [is_tabular] at h
          | int n => simp [is_tabular] at h
          | float m e => simp [is_tabular] at h
          | str s => simp [is_tabular] at h
          | obj f => simp [is_tabular] at h
        · simp [is_tabular] at h
    · rintro ⟨k, l, rfl⟩
      rfl
  · rfl

/-- Witness for C6's amended characterisation at a non-empty array entry. -/
theorem C6_witness : is_tabular [("k", Value.arr [Value.null])] = true :=
  (C6_is_tabular_amended.1 _).mpr ⟨"k", [Value.null], rfl⟩

/-- C10: on every input string on which decode succeeds, the returned value
is an object — both the tabular path and the key/value path build a dict at
top level, so decode never returns a bare array, string, number, boolean or
null. -/
theorem C10_decode_returns_object :
    ∀ (s : String) (v : Value), decode s = .ok v → ∃ m, v = Value.obj m :=
  decode_ok_obj

/-- Witness for C10 on a concrete key/value input. -/
theorem C10_witness : ∃ m, Value.obj [("a", Value.int 1)] = Value.obj m :=
  C10_decode_returns_object "a: 1" _ rfl

/-- C2 counterexample: decode of the empty string returns an empty object
rather than failing, and an input whose tabular header parses perfectly
raises a `ValueError` from `float("1-2")` — both directions of the claimed
failure contract are violated (no `MalformedInput` exists in the code). -/
theorem C2_counterexample :
    decode "" = .ok (Value.obj []) ∧
    decode "k[1]\x7bc\x7d:\n  1-2" = .error .valueError :=
  ⟨rfl, rfl⟩

/-- C2 amended: decode never raises `MalformedInput` — the empty string
decodes to an empty object; a first line whose header pattern does not match
falls back to key/value parsing; the only reachable failure is the
`ValueError` of numeric conversion; and a scalar field string that parses as
none of null, boolean or number is returned as its literal string. -/
theorem C2_decode_failure_amended :
    decode "" = .ok (Value.obj []) ∧
    (∀ first rest, reMatchHeader first = none →
      decode_tabular (first :: rest) = decode_key_value (first :: rest)) ∧
    (∀ l : List Char,
      pyLower l ≠ "null".toList → pyLower l ≠ "true".toList →
      pyLower l ≠ "false".toList → pyIsDigit l = false →
      pyIsDigit (removeMinus (removeDots l)) = false →
      convert_value l = .ok (.str (String.mk l))) := by
  refine ⟨rfl, ?_, ?_⟩
  · intro first rest h
    show (match reMatchHeader first with
      | none => decode_key_value (first :: rest)
      | some (key, _count, colsStr) =>
        match parseRows ((pySplit ',' colsStr).map (fun c => String.mk (pyStrip c))) rest with
        | .error e => .error e
        | .ok rows => .ok (.obj [(String.mk (pyStrip key), .arr rows)])) =
      decode_key_value (first :: rest)
    rw [h]
  · intro l h1 h2 h3 h4 h5
    unfold convert_value
    rw [if_neg h1, if_neg h2, if_neg h3, if_neg (by simp [h4]), if_neg (by simp [h5])]

/-- Witness for C2's amended graceful-degradation clause at `abc`. -/
theorem C2_witness : convert_value "abc".toList = .ok (.str (String.mk "abc".toList)) :=
  C2_decode_failure_amended.2.2 "abc".toList (by decide) (by decide) (by decide)
    (by decide) (by decide)

/-- C4 counterexample: decoding the encoding of Null yields the empty object,
not Null. -/
theorem C4_counterexample :
    ¬ ∃ w, decode (encode defaultConfig Value.null) = .ok w ∧ ValEqUpTo w Value.null := by
  rintro ⟨w, hw, he⟩
  have hval : decode (encode defaultConfig Value.null) = .ok (Value.obj []) := rfl
  have hwv := Except.ok.inj (hval.symm.trans hw)
  subst hwv
  cases he

/-- C4 amended: the scalar round trip never holds — for every scalar value,
any successful decode of its encoding is an object and therefore differs
from the scalar. -/
theorem C4_scalar_roundtrip_amended :
    ∀ (v w : Value), isScalarV v = true → decode (encode defaultConfig v) = .ok w →
      (∃ m, w = Value.obj m) ∧ ¬ ValEqUpTo w v := by
  intro v w hs hd
  obtain ⟨m, rfl⟩ := decode_ok_obj _ _ hd
  refine ⟨⟨m, rfl⟩, ?_⟩
  intro he
  cases he
  simp [isScalarV] at hs

/-- Witness for C4's amended statement at Null. -/
theorem C4_witness :
    (∃ m, Value.obj ([] : List (String × Value)) = Value.obj m) ∧
    ¬ ValEqUpTo (Value.obj []) Value.null :=
  C4_scalar_roundtrip_amended Value.null (Value.obj []) (by decide) rfl

/-- C1 counterexample: the uniform array `[{"id": 1}, {"id": 2}]` encodes to
the bare header `[2]{id}:` with two rows, whose decoding is the single-key
object `{"[2]{id}": "1 2"}` — not the original array (the decoder's header
regex requires a nonempty key, so the encoder's bare header never
matches). -/
theorem C1_counterexample :
    ¬ ∃ w, decode (encode defaultConfig
        (Value.arr [Value.obj [("id", Value.int 1)], Value.obj [("id", Value.int 2)]])) = .ok w ∧
      ValEqUpTo w (Value.arr [Value.obj [("id", Value.int 1)], Value.obj [("id", Value.int 2)]]) := by
  rintro ⟨w, hw, he⟩
  have hval : decode (encode defaultConfig
      (Value.arr [Value.obj [("id", Value.int 1)], Value.obj [("id", Value.int 2)]])) =
      .ok (Value.obj [("[2]\x7bid\x7d", Value.str "1 2")]) := rfl
  have hwv := Except.ok.inj (hval.symm.trans hw)
  subst hwv
  cases he

/-- C1 amended: decoding the encoding of a uniform array never returns the
array — every successful decode of it is an object. -/
theorem C1_uniform_roundtrip_amended :
    ∀ (l : List Value) (w : Value), is_uniform_array l = true →
      decode (encode defaultConfig (Value.arr l)) = .ok w →
      (∃ m, w = Value.obj m) ∧ ¬ ValEqUpTo w (Value.arr l) := by
  intro l w _hu hd
  obtain ⟨m, rfl⟩ := decode_ok_obj _ _ hd
  exact ⟨⟨m, rfl⟩, fun he => by cases he⟩

/-- Witness for C1's amended statement at the two-row uniform array. -/
theorem C1_witness :
    (∃ m, Value.obj [("[2]\x7bid\x7d", Value.str "1 2")] = Value.obj m) ∧
    ¬ ValEqUpTo (Value.obj [("[2]\x7bid\x7d", Value.str "1 2")])
      (Value.arr [Value.obj [("id", Value.int 1)], Value.obj [("id", Value.int 2)]]) :=
  C1_uniform_roundtrip_amended _ _ (by decide) rfl

/-- C3 counterexample: the string `a"b` contains a double quote, so the
claimed wrap-iff-comma-newline-or-quote rule requires the quoted form, but
the encoder's row-field rendering tests only comma and newline and emits the
string bare. -/
theorem C3_counterexample :
    ¬ (row_field (Value.str "a\"b") = specQuoted "a\"b".toList ↔
       ("a\"b".toList.contains ',' = true ∨ "a\"b".toList.contains '\n' = true ∨
        "a\"b".toList.contains '"' = true)) := by decide

/-- C3 amended: the uniform-array field encoder emits the quoted escaped form
exactly when the string contains a comma or a newline (a quote alone does
not trigger quoting), and the decoder's CSV split recovers the original
field exactly for strings containing no double quote and no newline. -/
theorem C3_field_escaping_amended :
    ∀ s : List Char,
      (row_field (.str (String.mk s)) = specQuoted s ↔
        (s.contains ',' = true ∨ s.contains '\n' = true)) ∧
      (s.contains '"' = false → s.contains '\n' = false →
        parse_csv_line (row_field (.str (String.mk s))) = [s]) := by
  intro s
  have hrf : row_field (.str (String.mk s)) =
      (if s.contains ',' || s.contains '\n' then specQuoted s else s) := rfl
  constructor
  · rw [hrf]
    by_cases hc : s.contains ',' = true
    · rw [if_pos (by rw [hc, Bool.true_or])]
      exact iff_of_true rfl (Or.inl hc)
    · have hcf : s.contains ',' = false := by
        revert hc
        cases s.contains ',' <;> simp
      by_cases hn : s.contains '\n' = true
      · rw [if_pos (by rw [hn, Bool.or_true])]
        exact iff_of_true rfl (Or.inr hn)
      · have hnf : s.contains '\n' = false := by
          revert hn
          cases s.contains '\n' <;> simp
        rw [if_neg (by rw [hcf, hnf]; exact Bool.false_ne_true)]
        have hlen : s.length < (specQuoted s).length := by
          have h1 := escQuotes_length s
          have h2 := escNewlines_length (escQuotes s)
          simp only [specQuoted, List.length_cons, List.length_append, List.length_singleton]
          omega
        refine iff_of_false ?_ ?_
        · intro heq
          have := congrArg List.length heq
          omega
        · rintro (h1 | h2)
          · exact hc h1
          · exact hn h2
  · intro hq hn
    have hq' : '"' ∉ s := not_mem_of_contains_false hq
    have hn' : '\n' ∉ s := not_mem_of_contains_false hn
    rw [hrf]
    by_cases hc : s.contains ',' = true
    · rw [if_pos (by rw [hc, Bool.true_or])]
      have he2 : escNewlines (escQuotes s) = s := by
        rw [escQuotes_of_not_mem s hq']
        exact escNewlines_of_not_mem s hn'
      unfold specQuoted
      rw [he2]
      show parse_csv_aux false [] [] ('"' :: (s ++ ['"'])) = [s]
      simp only [parse_csv_aux, if_pos rfl]
      simpa using parse_csv_aux_quoted s [] []
        (fun x hx => fun hxq => hq' (hxq ▸ hx))
    · have hcf : s.contains ',' = false := by
        revert hc
        cases s.contains ',' <;> simp
      rw [if_neg (by rw [hcf, hn]; exact Bool.false_ne_true)]
      have hbare : ∀ x ∈ s, x ≠ '"' ∧ x ≠ ',' := by
        intro x hx
        exact ⟨fun hxq => hq' (hxq ▸ hx),
               fun hxc => (not_mem_of_contains_false hcf) (hxc ▸ hx)⟩
      simpa using parse_csv_aux_unquoted s [] [] hbare

/-- Witness for C3's amended round trip on a comma-containing string. -/
theorem C3_witness :
    parse_csv_line (row_field (.str (String.mk "a,b".toList))) = ["a,b".toList] :=
  (C3_field_escaping_amended "a,b".toList).2 (by decide) (by decide)

/-- C7 counterexample: the bare tabular header `[2]{id}:` with two rows —
exactly what the encoder emits for a uniform array — does not decode to the
array: the decoder's header regex requires a nonempty key, so the text falls
through to key/value parsing and yields an object. -/
theorem C7_counterexample :
    ¬ ∃ rows : List Value, decode "[2]\x7bid\x7d:\n  1\n  2" = .ok (Value.arr rows) := by
  rintro ⟨rows, h⟩
  have hval : decode "[2]\x7bid\x7d:\n  1\n  2" =
      .ok (Value.obj [("[2]\x7bid\x7d", Value.str "1 2")]) := rfl
  have := Except.ok.inj (hval.symm.trans h)
  exact Value.noConfusion this

theorem decode_eq_of_split (s : String) (first : List Char) (rest : List (List Char))
    (h : pySplit '\n' (pyStrip s.toList) = first :: rest) :
    decode s = if is_tabular_format first then decode_tabular (first :: rest)
               else decode_key_value (first :: rest) := by
  unfold decode
  rw [h]

theorem decode_tabular_cons (header : List Char) (rest : List (List Char)) :
    decode_tabular (header :: rest) =
      match reMatchHeader header with
      | none => decode_key_value (header :: rest)
      | some (key, _count, colsStr) =>
        match parseRows ((pySplit ',' colsStr).map (fun c => String.mk (pyStrip c))) rest with
        | .error e => .error e
        | .ok rows => .ok (.obj [(String.mk (pyStrip key), .arr rows)]) := rfl

/-- C7 amended: when the first line looks tabular and the header pattern
matches with its (necessarily nonempty) key capture, decode returns the
single-key object wrapping the array of row-objects (or propagates the
numeric-conversion error); a bare `[N]{cols}:` header never matches the
pattern, so decode never returns a bare array. -/
theorem C7_tabular_shape_amended :
    ∀ (s : String) (first : List Char) (rest : List (List Char)) (k d c : List Char),
      pySplit '\n' (pyStrip s.toList) = first :: rest →
      is_tabular_format first = true →
      reMatchHeader first = some (k, d, c) →
      decode s = .error .valueError ∨
      ∃ rows, decode s = .ok (Value.obj [(String.mk (pyStrip k), Value.arr rows)]) := by
  intro s first rest k d c hsplit htab hmatch
  rw [decode_eq_of_split s first rest hsplit, if_pos htab, decode_tabular_cons]
  simp only [hmatch]
  rcases hr : parseRows ((pySplit ',' c).map (fun x => String.mk (pyStrip x))) rest with e | rows
  · cases e
    exact Or.inl rfl
  · exact Or.inr ⟨rows, rfl⟩

/-- Witness for C7's amended statement on the spec's own header example. -/
theorem C7_witness :
    decode "items[2]\x7bid,name\x7d:\n  1,Alice\n  2,Bob" = .error .valueError ∨
    ∃ rows, decode "items[2]\x7bid,name\x7d:\n  1,Alice\n  2,Bob" =
      .ok (Value.obj [(String.mk (pyStrip "items".toList), Value.arr rows)]) :=
  C7_tabular_shape_amended _ _ _ _ _ _ rfl rfl rfl

/-- C8 counterexample: the top-level encoding of Boolean true is `True`
(Python `str`), not the claimed lowercase `true`. -/
theorem C8_counterexample : encode defaultConfig (Value.bool true) ≠ "true" := by decide

/-- C8 amended: Null renders as `null` at top level and through
`_encode_simple_value`; Booleans render lowercase only through
`_encode_simple_value` (key/value object lines) — the top-level `encode` and
the uniform-array row renderer go through Python `str`, producing `True` and
`False` capitalised. -/
theorem C8_scalar_rendering_amended :
    (∀ cfg : TOONConfig, encode cfg Value.null = "null") ∧
    (∀ cfg : TOONConfig, encode cfg (Value.bool true) = "True") ∧
    (∀ cfg : TOONConfig, encode cfg (Value.bool false) = "False") ∧
    (∀ cfg : TOONConfig, encode_simple_value cfg Value.null = "null".toList) ∧
    (∀ cfg : TOONConfig, encode_simple_value cfg (Value.bool true) = "true".toList) ∧
    (∀ cfg : TOONConfig, encode_simple_value cfg (Value.bool false) = "false".toList) ∧
    row_field (Value.bool true) = "True".toList :=
  ⟨fun _ => rfl, fun _ => rfl, fun _ => rfl, fun _ => rfl, fun _ => rfl, fun _ => rfl, rfl⟩

/-- C9: the TOON formatting path emits output beginning with the
`// TOON format` token, the JSON fallback never does, and the response
parser dispatches purely on that marker — with it, the first raw line is
dropped and the rest decoded as TOON; without it, the external JSON path is
taken and the TOON decoder is not involved. -/
theorem C9_format_marker_dispatch :
    (∀ (cfg : TOONConfig) (v : Value) (c : String), should_use_toon v c = true →
      markerChars.isPrefixOf (format_for_droid cfg v c).toList = true) ∧
    (∀ (cfg : TOONConfig) (v : Value) (c : String), should_use_toon v c = false →
      markerChars.isPrefixOf (format_for_droid cfg v c).toList = false) ∧
    (∀ (jsonLoads : String → Option Value) (r : String),
      markerChars.isPrefixOf (pyStrip r.toList) = true →
      parse_droid_response jsonLoads r =
        decode (String.mk (joinSep ['\n'] ((pySplit '\n' r.toList).drop 1)))) ∧
    (∀ (jsonLoads : String → Option Value) (r : String),
      markerChars.isPrefixOf (pyStrip r.toList) = false →
      parse_droid_response jsonLoads r = json_fallback jsonLoads r) := by
  refine ⟨?_, ?_, ?_, ?_⟩
  · intro cfg v c h
    unfold format_for_droid
    rw [if_pos h]
    unfold format_toon
    rw [toList_mk]
    have hsplit : "// TOON format - 30-60% token reduction\n".toList =
        markerChars ++ " - 30-60% token reduction\n".toList := rfl
    rw [hsplit, List.append_assoc]
    exact isPrefixOf_append_self _ _
  · intro cfg v c h
    unfold format_for_droid
    rw [if_neg (by simp [h])]
    unfold format_json
    rw [toList_mk]
    exact json_not_marker _ _ v
  · intro jl r h
    unfold parse_droid_response
    rw [if_pos h]
  · intro jl r h
    unfold parse_droid_response
    rw [if_neg (show ¬(markerChars.isPrefixOf (pyStrip r.toList) = true) by
      rw [h]; exact Bool.false_ne_true)]

/-- Witness for C9 on a tool-result payload that selects TOON. -/
theorem C9_witness :
    markerChars.isPrefixOf (format_for_droid defaultConfig
      (Value.arr [Value.obj [("a", Value.int 1)], Value.obj [("b", Value.int 2)]])
      "tool_result").toList = true :=
  C9_format_marker_dispatch.1 defaultConfig _ "tool_result" (by decide)
